import Mathlib

/-!
# Verification of the Ambient Weather TX-31xx decoder

Shallow embedding of `src/src/devices/ambient_weather_tx31xx.c`
(`ambient_weather_tx31xx_decode`) together with the bit-buffer, CRC-16 and
SUM-8 helpers it calls.  The helpers (`bitbuffer_search`,
`bitbuffer_extract_bytes`, `crc16`, `add_bytes`) live elsewhere in the
repository and are not under `src/`; they are modelled from the spec
(sections 4.1, 4.2 and 6), with the call-site aliasing of
`bitbuffer_extract_bytes` (the decoder passes the row itself as the output
buffer) made explicit as a sequential in-place byte write.

Machine integers are modelled as `Nat` (with `% 256` / `% 65536` where the C
uses `uint8_t` / `uint16_t`); the C `float` temperature is modelled in tenths
of a degree Celsius as an `Int`, following the spec's data model ("temperature
in tenths of a degree Celsius (signed)"); every value the decoder produces is
an exact multiple of 0.1.
-/

set_option maxRecDepth 400000

namespace RTL433

/-- A demodulated bit buffer row.  `bits` is the underlying row storage
(MSB-first within each byte, as rtl_433 stores bits); the fixed-size C row
array is readable beyond the declared length, so `bits` is total.
`len` is `bits_per_row[0]`, the number of valid bits. -/
structure Bitbuffer where
  bits : Nat → Bool
  len : Nat

/-- `#define TX31XX_BITLEN 168` -/
def TX31XX_BITLEN : Nat := 168

/-- `uint8_t const preamble[] = {0xaa, 0x2d, 0xd4};` -/
def preambleBytes : List Nat := [0xaa, 0x2d, 0xd4]

/-- Bit `t` of the 24-bit preamble pattern, MSB-first. -/
def preambleBit (t : Nat) : Bool :=
  Nat.testBit (preambleBytes.getD (t / 8) 0) (7 - t % 8)

/-- The 24-bit preamble pattern occurs at bit position `p` of the row
(entirely within the declared `len` bits). -/
def MatchAt (bb : Bitbuffer) (p : Nat) : Prop :=
  ∀ t, t < 24 → bb.bits (p + t) = preambleBit t

instance (bb : Bitbuffer) (p : Nat) : Decidable (MatchAt bb p) := by
  unfold MatchAt; infer_instance

/-- Modelled from the spec (§4.1): `bitbuffer_search` scans for the first
occurrence of the pattern wholly inside the declared bits, "or a \"not found\"
signal when the pattern does not occur before the buffer ends" (the C returns
`bits_per_row[row]` in that case).  Structural recursion on explicit fuel so
that the function reduces in the kernel. -/
def searchAux (bb : Bitbuffer) : Nat → Nat → Nat
  | _, 0 => bb.len
  | p, fuel + 1 =>
      if p + 24 ≤ bb.len then
        if MatchAt bb p then p else searchAux bb (p + 1) fuel
      else bb.len

/-- `bitbuffer_search(bitbuffer, 0, 0, preamble, 24)` -/
def bitbufferSearch (bb : Bitbuffer) : Nat :=
  searchAux bb 0 (bb.len + 1)

/-- One byte assembled MSB-first from eight consecutive bits starting at bit
position `pos` — the pure meaning of one output byte of
`bitbuffer_extract_bytes` (modelled from the spec §6: "extraction of a
sub-range of bits into a byte array"). -/
def pureByte (r : Nat → Bool) (pos : Nat) : Nat :=
  128 * (r pos).toNat + 64 * (r (pos + 1)).toNat + 32 * (r (pos + 2)).toNat +
  16 * (r (pos + 3)).toNat + 8 * (r (pos + 4)).toNat + 4 * (r (pos + 5)).toNat +
  2 * (r (pos + 6)).toNat + (r (pos + 7)).toNat

/-- A row whose first `w.length` bytes have been overwritten with the byte
values `w` (low 8 bits of each entry, MSB-first), every other bit unchanged. -/
def overwriteBytes (w : List Nat) (orig : Nat → Bool) : Nat → Bool :=
  fun k => if k / 8 < w.length then Nat.testBit (w.getD (k / 8) 0) (7 - k % 8) else orig k

/-- Modelled from the spec (§4.1/§6) with the call-site aliasing made
explicit: `bitbuffer_extract_bytes(bitbuffer, 0, pos, b, n*8)` where the
output pointer `b` *is* the row being read (`b = bitbuffer->bb[0]`).  The C
loop produces output byte `i` from the current contents of the row (its first
`i` bytes already replaced) at bit offset `pos + 8*i` and then stores it at
byte `i`; `extractLoop` returns the list of bytes written.  Since `pos ≥ 24`
the bits read for byte `i` lie strictly beyond the bytes already written,
which is proved (not assumed) in `extractLoop_getD` below. -/
def extractLoop (orig : Nat → Bool) (pos : Nat) : Nat → List Nat
  | 0 => []
  | n + 1 =>
      let w := extractLoop orig pos n
      w ++ [pureByte (overwriteBytes w orig) (pos + 8 * n)]

/-- The row after `bitbuffer_extract_bytes(bitbuffer, 0, start_pos + 24, b, 18 * 8)`
has executed (with `b = bitbuffer->bb[0]`). -/
def rowAfterExtract (bb : Bitbuffer) : Nat → Bool :=
  overwriteBytes (extractLoop bb.bits (bitbufferSearch bb + 24) 18) bb.bits

/-- `b[j]` as read by the decoder *after* the in-place frame extraction. -/
def mutByte (bb : Bitbuffer) (j : Nat) : Nat :=
  pureByte (rowAfterExtract bb) (8 * j)

/-- Byte `j` of the candidate frame: the pure extraction of the 18 bytes that
begin immediately after the matched preamble, from the original row bits. -/
def frameByteP (bb : Bitbuffer) (j : Nat) : Nat :=
  pureByte bb.bits (bitbufferSearch bb + 24 + 8 * j)

/-- `bitbuffer_extract_bytes(bitbuffer, 0, 16, dataforcrc, 15 * 8)`: the 15
bytes read at fixed bit offset 16 of the (already overwritten) row. -/
def dataforcrc (bb : Bitbuffer) : List Nat :=
  (List.range 15).map (fun i => pureByte (rowAfterExtract bb) (16 + 8 * i))

/-- Modelled from the spec (§4.2): `add_bytes` — the arithmetic sum of a byte
list (the C helper returns the full `int` sum; reduction mod 256 happens at
the `uint8_t` conversion of the caller). -/
def sumBytes (l : List Nat) : Nat := l.foldl (· + ·) 0

/-- Modelled from the spec (§4.2/glossary): one byte step of CRC-16/XMODEM —
polynomial `0x1021`, MSB-first, no reflection, all arithmetic in 16 bits. -/
def crc16Byte (poly crc byte : Nat) : Nat :=
  (List.range 8).foldl
    (fun c _ => if c &&& 0x8000 ≠ 0 then ((c <<< 1) ^^^ poly) &&& 0xFFFF
                else (c <<< 1) &&& 0xFFFF)
    ((crc ^^^ (byte <<< 8)) &&& 0xFFFF)

/-- Modelled from the spec (§4.2): `crc16(message, nBytes, polynomial, init)`. -/
def crc16 (message : List Nat) (poly init : Nat) : Nat :=
  message.foldl (fun c b => crc16Byte poly c b) init

/-- `r_crc = (b[0] << 8) | b[1];` -/
def r_crc (bb : Bitbuffer) : Nat := (mutByte bb 0) <<< 8 ||| mutByte bb 1

/-- `c_crc = crc16(dataforcrc, 15, 0x1021, 0x0000);` -/
def c_crc (bb : Bitbuffer) : Nat := crc16 (dataforcrc bb) 0x1021 0x0000

/-- `uint8_t c_sum = (add_bytes(dataforcrc, 15) ^ 0xFF) - b[17];` — the
subtraction happens in `int` and the result is reduced mod 256 by the
`uint8_t` conversion, modelled with `Int` Euclidean mod. -/
def c_sum (bb : Bitbuffer) : Int :=
  (((sumBytes (dataforcrc bb) ^^^ 0xFF : Nat) : Int) - (mutByte bb 17 : Int)) % 256

/-- `sensor_id = (b[6] & 0xF);` -/
def sensorId (bb : Bitbuffer) : Nat := mutByte bb 6 % 16

/-- `battery_ok = ((b[13] & 0x02) >> 1);` -/
def batteryOkBit (bb : Bitbuffer) : Nat := mutByte bb 13 / 2 % 2

/-- `sign = ((b[13] & 0x08) >> 3);` -/
def signBit (bb : Bitbuffer) : Nat := mutByte bb 13 / 8 % 2

/-- The temperature the decoder computes, in tenths of a degree Celsius.
Negative path (C line 125): `((b[19] >> 4) & 0xF) * -1 + (b[19] & 0xF) * -0.1`
— note `b[19]` is past the 18-byte frame, i.e. a residual row byte.
Positive path (C line 128):
`((b[12] >> 4) & 0xF) * 10 + (b[12] & 0xF) + ((b[13] >> 4) & 0xF) * 0.1`. -/
def temperatureTenthsOf (bb : Bitbuffer) : Int :=
  if signBit bb = 1 then
    -10 * ((mutByte bb 19 / 16 % 16 : Nat) : Int) - ((mutByte bb 19 % 16 : Nat) : Int)
  else
    100 * ((mutByte bb 12 / 16 % 16 : Nat) : Int) + 10 * ((mutByte bb 12 % 16 : Nat) : Int) +
      ((mutByte bb 13 / 16 % 16 : Nat) : Int)

/-- `uint8_t moisture_array[16] = { 0, 7, 13, 20, 27, 33, 40, 47, 53, 60, 67, 73, 80, 87, 93, 99 };` -/
def moisture_array : List Nat :=
  [0, 7, 13, 20, 27, 33, 40, 47, 53, 60, 67, 73, 80, 87, 93, 99]

/-- `(((b[14] >> 4) & 0xF) * 10 + (b[14] & 0xF))` — the raw moisture code. -/
def moistureCode (bb : Bitbuffer) : Nat :=
  mutByte bb 14 / 16 % 16 * 10 + mutByte bb 14 % 16

/-- The validated reading handed to the output sink (`data_make` fields). -/
structure DecodedReading where
  model : String
  id : Nat
  temperatureTenths : Int
  moisture : Nat
  batteryOK : Bool
  mic : String
deriving DecidableEq, Repr

/-- The outcome of one decode call.  `abortEarly` = `DECODE_ABORT_EARLY`
(preamble not found), `abortLength` = `DECODE_ABORT_LENGTH`,
`notThisProtocol` = `return 0` (family / sub-model mismatch), `failMic` =
`DECODE_FAIL_MIC`, `failSanity` = `DECODE_FAIL_SANITY`.  `oobTableRead`
marks the paths on which the C evaluates `moisture_array[code - 1]` with
`code - 1` outside `0..15` — an out-of-bounds array read (undefined
behaviour), which a total model must name explicitly. -/
inductive DecodeResult where
  | abortEarly
  | abortLength
  | notThisProtocol
  | failMic
  | failSanity
  | oobTableRead
  | success (r : DecodedReading)
deriving DecidableEq, Repr

/-- `static int ambient_weather_tx31xx_decode(r_device *decoder, bitbuffer_t *bitbuffer)`,
lines 48–161, with each guard in source order. -/
def ambient_weather_tx31xx_decode (bb : Bitbuffer) : DecodeResult :=
  if bitbufferSearch bb = bb.len then .abortEarly
  else if bb.len < TX31XX_BITLEN then .abortLength
  else if mutByte bb 2 ≠ 0x18 then .notThisProtocol
  else if mutByte bb 3 = 0x70 ∨ mutByte bb 3 = 0x30 then
    if c_sum bb ≠ 0 then .failMic
    else if c_crc bb ≠ r_crc bb then .failMic
    else if sensorId bb > 7 then .failSanity
    else if mutByte bb 3 = 0x70 then
      if 1 ≤ moistureCode bb ∧ moistureCode bb ≤ 16 then
        .success ⟨"Ambient Weather TX-3102", sensorId bb, temperatureTenthsOf bb,
                  moisture_array.getD (moistureCode bb - 1) 0, batteryOkBit bb == 1, "CRC"⟩
      else .oobTableRead
    else
      .success ⟨"Ambient Weather TX-3108", sensorId bb, temperatureTenthsOf bb,
                moistureCode bb, batteryOkBit bb == 1, "CRC"⟩
  else .notThisProtocol

/-- The row storage as left behind by one decode call: the in-place frame
extraction runs exactly when the preamble was found and the length check
passed. -/
def tx31xxFinalRow (bb : Bitbuffer) : Nat → Bool :=
  if bitbufferSearch bb = bb.len then bb.bits
  else if bb.len < TX31XX_BITLEN then bb.bits
  else rowAfterExtract bb

/-- Build a bit buffer whose declared length covers exactly the given bytes
(each `< 256`); storage beyond the list reads as zero bits, like a cleared
row array. -/
def bufOfBytes (l : List Nat) : Bitbuffer :=
  ⟨fun i => Nat.testBit (l.getD (i / 8) 0) (7 - i % 8), 8 * l.length⟩

/-! ## Claim-level predicates

The spec states the integrity conditions on the *candidate frame* (the 18
bytes that follow the matched preamble, read from the original row):
body = frame bytes 2..16, `CRC16_XMODEM(body) == received_CRC` and
`(SUM8(body) XOR 0xFF) == trailing_checksum`. -/

/-- The body of the candidate frame: its bytes 2..16. -/
def bodyBytesP (bb : Bitbuffer) : List Nat :=
  (List.range 15).map (fun i => frameByteP bb (2 + i))

/-- The CRC condition of spec §4.2/§8 on the candidate frame. -/
def CrcOK (bb : Bitbuffer) : Prop :=
  crc16 (bodyBytesP bb) 0x1021 0x0000 = frameByteP bb 0 <<< 8 ||| frameByteP bb 1

instance (bb : Bitbuffer) : Decidable (CrcOK bb) := by unfold CrcOK; infer_instance

/-- The SUM-8 condition of spec §4.2/§8 on the candidate frame. -/
def SumOK (bb : Bitbuffer) : Prop :=
  (sumBytes (bodyBytesP bb) % 256) ^^^ 0xFF = frameByteP bb 17

instance (bb : Bitbuffer) : Decidable (SumOK bb) := by unfold SumOK; infer_instance

/-- The byte the negative-temperature path actually reads: `b[19]`, i.e.
byte 19 of the row storage — *past* the 18 bytes the extraction overwrote,
hence always a residual byte of the original row (at absolute bit 152). -/
def altTempByte (bb : Bitbuffer) : Nat := pureByte bb.bits 152

/-! ## Concrete inputs

Each frame is 18 bytes: 2 CRC bytes (CRC-16/XMODEM over bytes 2..16),
family `0x18`, sub-model, filler, channel byte, filler, `b[12]`/`b[13]`
temperature+battery/sign, `b[14]` moisture, filler, SUM-8 checksum. -/

/-- The claim C1 round-trip frame: valid CRC/checksum, family `0x18`,
sub-model `0x70`, channel nibble 3, temperature BCD 23.4, battery bit set,
moisture code 5. -/
def frameC1 : List Nat :=
  [0xEF, 0xD0, 0x18, 0x70, 0x00, 0x00, 0x03, 0x00, 0x00, 0x00, 0x00, 0x00,
   0x23, 0x42, 0x05, 0x00, 0x00, 0x0A]

def bufC1 : Bitbuffer := bufOfBytes (preambleBytes ++ frameC1)

/-- What the decoder produces on `bufC1`. -/
def readingC1 : DecodedReading :=
  ⟨"Ambient Weather TX-3102", 3, 234, 27, true, "CRC"⟩

/-- Valid frame whose raw moisture code is 0 (`b[14] = 0x00`). -/
def frameC3 : List Nat :=
  [0x04, 0x20, 0x18, 0x70, 0x00, 0x00, 0x03, 0x00, 0x00, 0x00, 0x00, 0x00,
   0x23, 0x42, 0x00, 0x00, 0x00, 0x0F]

def bufC3 : Bitbuffer := bufOfBytes (preambleBytes ++ frameC3)

/-- Valid frame whose channel nibble is 0 (`b[6] = 0x00`). -/
def frameC4 : List Nat :=
  [0x97, 0x2A, 0x18, 0x70, 0x00, 0x00, 0x00, 0x00, 0x00, 0x00, 0x00, 0x00,
   0x23, 0x42, 0x05, 0x00, 0x00, 0x0D]

def bufC4 : Bitbuffer := bufOfBytes (preambleBytes ++ frameC4)

def readingC4 : DecodedReading :=
  ⟨"Ambient Weather TX-3102", 0, 234, 27, true, "CRC"⟩

/-- Frame with family byte `0x00` (not this protocol) and an *invalid*
checksum (`b[17] = 0x00`, correct complemented sum would be `0x25`). -/
def frameC2 : List Nat :=
  [0x00, 0x00, 0x00, 0x70, 0x00, 0x00, 0x03, 0x00, 0x00, 0x00, 0x00, 0x00,
   0x23, 0x42, 0x05, 0x00, 0x00, 0x00]

def bufC2 : Bitbuffer := bufOfBytes (preambleBytes ++ frameC2)

/-- Frame with family byte `0x42` (not this protocol) and an *invalid* CRC
(received CRC `0x0000`). -/
def frameC5 : List Nat :=
  [0x00, 0x00, 0x42, 0x70, 0x00, 0x00, 0x03, 0x00, 0x00, 0x00, 0x00, 0x00,
   0x23, 0x42, 0x05, 0x00, 0x00, 0x00]

def bufC5 : Bitbuffer := bufOfBytes (preambleBytes ++ frameC5)

/-- 176-bit row whose preamble match is at bit 16, so only 136 bits remain
after the match point — fewer than the 144 frame bits. -/
def bufC6 : Bitbuffer :=
  bufOfBytes ([0x00, 0x00] ++ preambleBytes ++ List.replicate 17 0x00)

/-- A 100-bit row that does contain the preamble (at bit 0). -/
def bufC6short : Bitbuffer :=
  ⟨(bufOfBytes (preambleBytes ++ List.replicate 10 0x00)).bits, 100⟩

/-- Valid frame with the temperature sign bit set (`b[13] = 0x4A`) and the
alternate byte (row byte 19 = frame byte 16) equal to `0x00`. -/
def frameC7c : List Nat :=
  [0xB6, 0xD3, 0x18, 0x70, 0x00, 0x00, 0x03, 0x00, 0x00, 0x00, 0x00, 0x00,
   0x23, 0x4A, 0x01, 0x00, 0x00, 0x06]

def bufC7c : Bitbuffer := bufOfBytes (preambleBytes ++ frameC7c)

def readingC7c : DecodedReading :=
  ⟨"Ambient Weather TX-3102", 3, 0, 0, true, "CRC"⟩

/-- Valid frame with the sign bit set and the alternate byte `0x95`
(BCD magnitude 9.5). -/
def frameC7w : List Nat :=
  [0x65, 0xCF, 0x18, 0x70, 0x00, 0x00, 0x03, 0x00, 0x00, 0x00, 0x00, 0x00,
   0x23, 0x4A, 0x01, 0x00, 0x95, 0x71]

def bufC7w : Bitbuffer := bufOfBytes (preambleBytes ++ frameC7w)

def readingC7w : DecodedReading :=
  ⟨"Ambient Weather TX-3102", 3, -95, 0, true, "CRC"⟩

/-- An all-zero frame after the preamble: decode rejects it (family byte 0),
but the in-place extraction has already overwritten the start of the row. -/
def bufC8 : Bitbuffer := bufOfBytes (preambleBytes ++ List.replicate 18 0x00)

/-- The same row presented through a different construction: same bits, same
declared length (`168`). -/
def bufC8b : Bitbuffer :=
  ⟨(bufOfBytes (preambleBytes ++ List.replicate 18 0x00)).bits, 168⟩

end RTL433

namespace RTL433

/-! ## Byte-level helper lemmas -/

/-- Reassembling the eight tested bits of a byte value below 256 gives the
value back (finite check). -/
theorem byteOfTestBits : ∀ v, v < 256 →
    128 * (Nat.testBit v 7).toNat + 64 * (Nat.testBit v 6).toNat +
    32 * (Nat.testBit v 5).toNat + 16 * (Nat.testBit v 4).toNat +
    8 * (Nat.testBit v 3).toNat + 4 * (Nat.testBit v 2).toNat +
    2 * (Nat.testBit v 1).toNat + (Nat.testBit v 0).toNat = v := by decide

/-- Reassembling the eight low tested bits of any value gives the value
mod 256. -/
theorem byteBits_sum (v : Nat) :
    128 * (Nat.testBit v 7).toNat + 64 * (Nat.testBit v 6).toNat +
    32 * (Nat.testBit v 5).toNat + 16 * (Nat.testBit v 4).toNat +
    8 * (Nat.testBit v 3).toNat + 4 * (Nat.testBit v 2).toNat +
    2 * (Nat.testBit v 1).toNat + (Nat.testBit v 0).toNat = v % 256 := by
  have hb := byteOfTestBits (v % 256) (Nat.mod_lt _ (by norm_num))
  have ht : ∀ k, k < 8 → Nat.testBit (v % 256) k = Nat.testBit v k := by
    intro k hk
    rw [show (256 : Nat) = 2 ^ 8 by norm_num, Nat.testBit_mod_two_pow]
    simp [hk]
  rw [ht 7 (by norm_num), ht 6 (by norm_num), ht 5 (by norm_num), ht 4 (by norm_num),
      ht 3 (by norm_num), ht 2 (by norm_num), ht 1 (by norm_num), ht 0 (by norm_num)] at hb
  exact hb

/-- Every assembled byte is below 256. -/
theorem pureByte_lt (r : Nat → Bool) (pos : Nat) : pureByte r pos < 256 := by
  unfold pureByte
  have h0 := Bool.toNat_le (r pos)
  have h1 := Bool.toNat_le (r (pos + 1))
  have h2 := Bool.toNat_le (r (pos + 2))
  have h3 := Bool.toNat_le (r (pos + 3))
  have h4 := Bool.toNat_le (r (pos + 4))
  have h5 := Bool.toNat_le (r (pos + 5))
  have h6 := Bool.toNat_le (r (pos + 6))
  have h7 := Bool.toNat_le (r (pos + 7))
  omega

/-- `pureByte` only looks at the eight bits it assembles. -/
theorem pureByte_congr {r1 r2 : Nat → Bool} {pos : Nat}
    (h : ∀ t, t < 8 → r1 (pos + t) = r2 (pos + t)) : pureByte r1 pos = pureByte r2 pos := by
  have h0 := h 0 (by norm_num)
  rw [Nat.add_zero] at h0
  unfold pureByte
  rw [h0, h 1 (by norm_num), h 2 (by norm_num), h 3 (by norm_num), h 4 (by norm_num),
      h 5 (by norm_num), h 6 (by norm_num), h 7 (by norm_num)]

/-- If the eight bits at `pos` are the (MSB-first) bits of `v`, the assembled
byte is `v % 256`. -/
theorem pureByte_eq_of_testBit (r : Nat → Bool) (pos v : Nat)
    (h : ∀ t, t < 8 → r (pos + t) = Nat.testBit v (7 - t)) :
    pureByte r pos = v % 256 := by
  have h0 := h 0 (by norm_num)
  rw [Nat.add_zero] at h0
  unfold pureByte
  rw [h0, h 1 (by norm_num), h 2 (by norm_num), h 3 (by norm_num), h 4 (by norm_num),
      h 5 (by norm_num), h 6 (by norm_num), h 7 (by norm_num)]
  exact byteBits_sum v

end RTL433

namespace RTL433

/-! ## In-place extraction lemmas -/

/-- Bits at or beyond the written prefix are untouched. -/
theorem overwriteBytes_high (w : List Nat) (orig : Nat → Bool) (k : Nat)
    (h : 8 * w.length ≤ k) : overwriteBytes w orig k = orig k := by
  unfold overwriteBytes
  rw [if_neg (by omega)]

/-- Reading back a whole written byte. -/
theorem overwriteBytes_byte (w : List Nat) (orig : Nat → Bool) (j : Nat)
    (hj : j < w.length) :
    pureByte (overwriteBytes w orig) (8 * j) = w.getD j 0 % 256 := by
  apply pureByte_eq_of_testBit
  intro t ht
  unfold overwriteBytes
  rw [show (8 * j + t) / 8 = j by omega, show (8 * j + t) % 8 = t by omega, if_pos hj]

theorem extractLoop_length (orig : Nat → Bool) (pos : Nat) :
    ∀ n, (extractLoop orig pos n).length = n := by
  intro n
  induction n with
  | zero => rfl
  | succ m ih => simp [extractLoop, ih]

/-- The byte the loop writes at step `j` is the *pure* extraction of the
original bits at `pos + 8*j`: when step `j` runs, only bytes `0..j-1` have
been replaced, and the bits it reads start at `pos + 8*j ≥ 8*j`. -/
theorem extractLoop_getD (orig : Nat → Bool) (pos : Nat) :
    ∀ n j, j < n → (extractLoop orig pos n).getD j 0 = pureByte orig (pos + 8 * j) := by
  intro n
  induction n with
  | zero => intro j hj; omega
  | succ m ih =>
    intro j hj
    show (extractLoop orig pos m ++ [pureByte (overwriteBytes (extractLoop orig pos m) orig) (pos + 8 * m)]).getD j 0 = _
    rcases Nat.lt_or_ge j m with hjm | hjm
    · rw [List.getD_append _ _ _ _ (by rw [extractLoop_length]; omega)]
      exact ih j hjm
    · have hje : j = m := by omega
      subst hje
      rw [List.getD_append_right _ _ _ _ (by rw [extractLoop_length])]
      rw [extractLoop_length]
      have hcongr : pureByte (overwriteBytes (extractLoop orig pos j) orig) (pos + 8 * j) =
          pureByte orig (pos + 8 * j) := by
        apply pureByte_congr
        intro t ht
        apply overwriteBytes_high
        rw [extractLoop_length]
        omega
      simp [hcongr]

/-- Byte `j < n` of the row after the in-place extraction equals the pure
extraction of the original bits — the no-clobber property of the aliased
`bitbuffer_extract_bytes` call. -/
theorem extractLoop_byte (orig : Nat → Bool) (pos : Nat) (n j : Nat) (hj : j < n) :
    pureByte (overwriteBytes (extractLoop orig pos n) orig) (8 * j) =
      pureByte orig (pos + 8 * j) := by
  rw [overwriteBytes_byte _ _ _ (by rw [extractLoop_length]; omega)]
  rw [extractLoop_getD orig pos n j hj]
  exact Nat.mod_eq_of_lt (pureByte_lt _ _)

/-- For `j < 18`, `b[j]` after the in-place extraction is byte `j` of the
candidate frame. -/
theorem mutByte_eq_frame (bb : Bitbuffer) (j : Nat) (hj : j < 18) :
    mutByte bb j = frameByteP bb j := by
  unfold mutByte rowAfterExtract frameByteP
  exact extractLoop_byte bb.bits (bitbufferSearch bb + 24) 18 j hj

/-- `b[19]` after the extraction is the untouched row byte 19 (absolute bit
152) of the original buffer. -/
theorem mutByte_19 (bb : Bitbuffer) : mutByte bb 19 = altTempByte bb := by
  unfold mutByte rowAfterExtract altTempByte
  have h : pureByte (overwriteBytes (extractLoop bb.bits (bitbufferSearch bb + 24) 18) bb.bits) (8 * 19) =
      pureByte bb.bits (8 * 19) := by
    apply pureByte_congr
    intro t ht
    apply overwriteBytes_high
    rw [extractLoop_length]
    omega
  rw [h]

/-- `b[17]` is below 256. -/
theorem mutByte_lt (bb : Bitbuffer) (j : Nat) : mutByte bb j < 256 :=
  pureByte_lt _ _

theorem frameByteP_lt (bb : Bitbuffer) (j : Nat) : frameByteP bb j < 256 :=
  pureByte_lt _ _

/-- The 15 bytes re-extracted at fixed bit offset 16 of the overwritten row
are exactly bytes 2..16 of the candidate frame. -/
theorem dataforcrc_eq (bb : Bitbuffer) : dataforcrc bb = bodyBytesP bb := by
  unfold dataforcrc bodyBytesP
  apply List.map_congr_left
  intro i hi
  have hi15 : i < 15 := List.mem_range.mp hi
  rw [show 16 + 8 * i = 8 * (2 + i) by ring]
  exact mutByte_eq_frame bb (2 + i) (by omega)

end RTL433

namespace RTL433

/-! ## Integrity-check equivalences -/

/-- XOR with `0xFF` commutes with reduction mod 256. -/
theorem xor255_mod (s : Nat) : (s ^^^ 255) % 256 = s % 256 ^^^ 255 := by
  apply Nat.eq_of_testBit_eq
  intro i
  have h256 : (256 : Nat) = 2 ^ 8 := by norm_num
  have h255 : (255 : Nat) = 2 ^ 8 - 1 := by norm_num
  rcases Nat.lt_or_ge i 8 with hi | hi
  · rw [h256, Nat.testBit_mod_two_pow, Nat.testBit_xor, Nat.testBit_xor,
        Nat.testBit_mod_two_pow]
    simp [hi]
  · have hx : Nat.testBit ((s ^^^ 255) % 256) i = false :=
      Nat.testBit_lt_two_pow (by calc (s ^^^ 255) % 256 < 256 := Nat.mod_lt _ (by norm_num)
                                   _ = 2 ^ 8 := h256
                                   _ ≤ 2 ^ i := Nat.pow_le_pow_right (by norm_num) hi)
    have hy : Nat.testBit (s % 256) i = false :=
      Nat.testBit_lt_two_pow (by calc s % 256 < 256 := Nat.mod_lt _ (by norm_num)
                                   _ = 2 ^ 8 := h256
                                   _ ≤ 2 ^ i := Nat.pow_le_pow_right (by norm_num) hi)
    have hz : Nat.testBit 255 i = false :=
      Nat.testBit_lt_two_pow (by calc (255 : Nat) < 2 ^ 8 := by norm_num
                                   _ ≤ 2 ^ i := Nat.pow_le_pow_right (by norm_num) hi)
    rw [hx, Nat.testBit_xor, hy, hz]
    rfl

/-- The C residual test `((sum ^ 0xFF) - b[17]) mod 256 = 0` is equivalent to
the spec equality `(sum mod 256) XOR 0xFF = b[17]` — the "documented
off-by-subtraction quirk" of spec §4.2. -/
theorem residual_zero_iff (s t : Nat) (ht : t < 256) :
    ((((s ^^^ 255 : Nat) : Int) - (t : Int)) % 256 = 0) ↔ (s % 256 ^^^ 255 = t) := by
  rw [← Int.emod_eq_emod_iff_emod_sub_eq_zero]
  rw [show ((s ^^^ 255 : Nat) : Int) % 256 = (((s ^^^ 255) % 256 : Nat) : Int) by
        rw [Int.natCast_mod]; norm_num]
  rw [Int.emod_eq_of_lt (by positivity) (by exact_mod_cast ht)]
  rw [xor255_mod]
  exact_mod_cast Iff.rfl

/-- The decoder's checksum guard, restated on the candidate frame. -/
theorem c_sum_eq_zero_iff (bb : Bitbuffer) : c_sum bb = 0 ↔ SumOK bb := by
  unfold c_sum SumOK
  rw [dataforcrc_eq, mutByte_eq_frame bb 17 (by norm_num)]
  exact residual_zero_iff _ _ (frameByteP_lt bb 17)

/-- The decoder's CRC guard, restated on the candidate frame. -/
theorem c_crc_eq_iff (bb : Bitbuffer) : c_crc bb = r_crc bb ↔ CrcOK bb := by
  unfold c_crc r_crc CrcOK
  rw [dataforcrc_eq, mutByte_eq_frame bb 0 (by norm_num), mutByte_eq_frame bb 1 (by norm_num)]

end RTL433

namespace RTL433

/-! ## Constructed-buffer and search lemmas -/

/-- Byte-aligned read of a byte-list buffer. -/
theorem bufOfBytes_byte (l : List Nat) (j : Nat) :
    pureByte (bufOfBytes l).bits (8 * j) = l.getD j 0 % 256 := by
  apply pureByte_eq_of_testBit
  intro t ht
  show Nat.testBit (l.getD ((8 * j + t) / 8) 0) (7 - (8 * j + t) % 8) = _
  rw [show (8 * j + t) / 8 = j by omega, show (8 * j + t) % 8 = t by omega]

/-- Bits inside the first list of an append agree with the bits of the first
list alone. -/
theorem bufOfBytes_append_bits (l1 l2 : List Nat) (i : Nat) (h : i < 8 * l1.length) :
    (bufOfBytes (l1 ++ l2)).bits i = (bufOfBytes l1).bits i := by
  show Nat.testBit ((l1 ++ l2).getD (i / 8) 0) (7 - i % 8) = _
  rw [List.getD_append _ _ _ _ (by omega)]
  rfl

/-- A buffer built as preamble ++ frame matches the preamble at bit 0. -/
theorem matchAt_preamble (fr : List Nat) : MatchAt (bufOfBytes (preambleBytes ++ fr)) 0 := by
  intro t ht
  rw [Nat.zero_add]
  rw [bufOfBytes_append_bits preambleBytes fr t (by simp [preambleBytes]; omega)]
  rfl

/-- If the pattern matches at bit 0 (and 24 bits exist), the search returns 0. -/
theorem bitbufferSearch_eq_zero (bb : Bitbuffer) (h24 : 24 ≤ bb.len) (hm : MatchAt bb 0) :
    bitbufferSearch bb = 0 := by
  unfold bitbufferSearch
  obtain ⟨m, hmEq⟩ : ∃ m, bb.len + 1 = m + 1 := ⟨bb.len, rfl⟩
  rw [hmEq]
  show searchAux bb 0 (m + 1) = 0
  unfold searchAux
  rw [if_pos (by omega), if_pos hm]

end RTL433

namespace RTL433

/-! ## Buffers of the shape preamble ++ 18-byte frame -/

theorem constructed_len (fr : List Nat) (h18 : fr.length = 18) :
    (bufOfBytes (preambleBytes ++ fr)).len = 168 := by
  show 8 * (preambleBytes ++ fr).length = 168
  simp [preambleBytes, h18]

theorem constructed_search (fr : List Nat) (h18 : fr.length = 18) :
    bitbufferSearch (bufOfBytes (preambleBytes ++ fr)) = 0 :=
  bitbufferSearch_eq_zero _ (by rw [constructed_len fr h18]; norm_num) (matchAt_preamble fr)

theorem constructed_frameByte (fr : List Nat) (h18 : fr.length = 18)
    (h256 : ∀ x ∈ fr, x < 256) (j : Nat) (hj : j < 18) :
    frameByteP (bufOfBytes (preambleBytes ++ fr)) j = fr.getD j 0 := by
  unfold frameByteP
  rw [constructed_search fr h18]
  rw [show 0 + 24 + 8 * j = 8 * (3 + j) by ring]
  rw [bufOfBytes_byte]
  rw [List.getD_append_right _ _ _ _ (by simp [preambleBytes])]
  rw [show 3 + j - preambleBytes.length = j by simp [preambleBytes]]
  apply Nat.mod_eq_of_lt
  have hmem : fr.getD j 0 ∈ fr := by
    rw [List.getD_eq_getElem fr 0 (by omega)]
    exact List.getElem_mem _
  exact h256 _ hmem

theorem constructed_mutByte (fr : List Nat) (h18 : fr.length = 18)
    (h256 : ∀ x ∈ fr, x < 256) (j : Nat) (hj : j < 18) :
    mutByte (bufOfBytes (preambleBytes ++ fr)) j = fr.getD j 0 := by
  rw [mutByte_eq_frame _ j hj]
  exact constructed_frameByte fr h18 h256 j hj

theorem constructed_body (fr : List Nat) (h18 : fr.length = 18)
    (h256 : ∀ x ∈ fr, x < 256) :
    bodyBytesP (bufOfBytes (preambleBytes ++ fr)) =
      (List.range 15).map (fun i => fr.getD (2 + i) 0) := by
  unfold bodyBytesP
  apply List.map_congr_left
  intro i hi
  have hi15 : i < 15 := List.mem_range.mp hi
  exact constructed_frameByte fr h18 h256 (2 + i) (by omega)

end RTL433

namespace RTL433

/-- **C1 (counterexample).** The round-trip frame of claim C1 — valid CRC
(`0xEFD0`), valid checksum (`0x0A`), family `0x18`, sub-model `0x70`, channel
nibble 3, temperature BCD 23.4 (`b[12]=0x23`, fraction nibble 4), battery bit
set (`b[13]=0x42`), moisture code 5 (`b[14]=0x05`) — decodes to moisture
**27** (= `moisture_array[5-1]`), not 33 as the claim states. -/
theorem C1_roundtrip_moisture_cex :
    CrcOK bufC1 ∧ SumOK bufC1 ∧
    frameByteP bufC1 2 = 0x18 ∧ frameByteP bufC1 3 = 0x70 ∧
    frameByteP bufC1 6 % 16 = 3 ∧ frameByteP bufC1 12 = 0x23 ∧
    frameByteP bufC1 13 = 0x42 ∧ frameByteP bufC1 14 = 0x05 ∧
    ambient_weather_tx31xx_decode bufC1 = .success readingC1 ∧
    readingC1.moisture = 27 ∧ ¬ readingC1.moisture = 33 := by decide

/-- **C1 (amended).** For every correctly constructed 18-byte frame with
valid CRC, valid checksum, family byte `0x18`, sub-model byte `0x70`,
channel nibble 3, temperature BCD encoding 23.4, battery bit set and
moisture code 5, decoding succeeds and yields model = soil-moisture variant
(`"Ambient Weather TX-3102"`), id = 3, temperature = 23.4 °C (234 tenths),
moisture = **27** (`moisture_array[code-1]` at code 5), battery = OK. -/
theorem C1_roundtrip (fr : List Nat) (h18 : fr.length = 18)
    (h256 : ∀ x ∈ fr, x < 256)
    (hfam : fr.getD 2 0 = 0x18) (hsub : fr.getD 3 0 = 0x70)
    (hchan : fr.getD 6 0 % 16 = 3) (htemp : fr.getD 12 0 = 0x23)
    (hbat : fr.getD 13 0 = 0x42) (hmoist : fr.getD 14 0 = 0x05)
    (hcrc : crc16 ((List.range 15).map (fun i => fr.getD (2 + i) 0)) 0x1021 0x0000 =
      fr.getD 0 0 <<< 8 ||| fr.getD 1 0)
    (hsum : (sumBytes ((List.range 15).map (fun i => fr.getD (2 + i) 0)) % 256) ^^^ 0xFF =
      fr.getD 17 0) :
    ambient_weather_tx31xx_decode (bufOfBytes (preambleBytes ++ fr)) =
      .success ⟨"Ambient Weather TX-3102", 3, 234, 27, true, "CRC"⟩ := by
  have hs := constructed_search fr h18
  have hlen := constructed_len fr h18
  have hB := constructed_mutByte fr h18 h256
  have hbody := constructed_body fr h18 h256
  have hF := constructed_frameByte fr h18 h256
  have hSumOK : SumOK (bufOfBytes (preambleBytes ++ fr)) := by
    unfold SumOK
    rw [hbody, hF 17 (by norm_num)]
    exact hsum
  have hCrcOK : CrcOK (bufOfBytes (preambleBytes ++ fr)) := by
    unfold CrcOK
    rw [hbody, hF 0 (by norm_num), hF 1 (by norm_num)]
    exact hcrc
  have hsid : sensorId (bufOfBytes (preambleBytes ++ fr)) = 3 := by
    unfold sensorId
    rw [hB 6 (by norm_num), hchan]
  have hbt : batteryOkBit (bufOfBytes (preambleBytes ++ fr)) = 1 := by
    unfold batteryOkBit
    rw [hB 13 (by norm_num), hbat]
  have hsg : signBit (bufOfBytes (preambleBytes ++ fr)) = 0 := by
    unfold signBit
    rw [hB 13 (by norm_num), hbat]
  have htt : temperatureTenthsOf (bufOfBytes (preambleBytes ++ fr)) = 234 := by
    unfold temperatureTenthsOf
    rw [hsg]
    rw [if_neg (by norm_num)]
    rw [hB 12 (by norm_num), htemp, hB 13 (by norm_num), hbat]
    norm_num
  have hmc : moistureCode (bufOfBytes (preambleBytes ++ fr)) = 5 := by
    unfold moistureCode
    rw [hB 14 (by norm_num), hmoist]
  unfold ambient_weather_tx31xx_decode
  rw [hs, hlen]
  rw [if_neg (by norm_num)]
  rw [if_neg (by norm_num [TX31XX_BITLEN])]
  rw [hB 2 (by norm_num), hfam]
  rw [if_neg (by norm_num)]
  rw [hB 3 (by norm_num), hsub]
  rw [if_pos (Or.inl rfl)]
  rw [if_neg (not_not_intro ((c_sum_eq_zero_iff _).mpr hSumOK))]
  rw [if_neg (not_not_intro ((c_crc_eq_iff _).mpr hCrcOK))]
  rw [hsid]
  rw [if_neg (by norm_num)]
  rw [if_pos rfl]
  rw [hmc]
  rw [if_pos (by norm_num)]
  rw [htt, hbt]
  rfl

end RTL433

namespace RTL433

/-- **C1 (witness).** The amended round-trip theorem applied to the concrete
frame `frameC1`. -/
theorem C1_roundtrip_witness :
    frameC1.length = 18 ∧
    ambient_weather_tx31xx_decode (bufOfBytes (preambleBytes ++ frameC1)) =
      .success ⟨"Ambient Weather TX-3102", 3, 234, 27, true, "CRC"⟩ :=
  ⟨by decide, C1_roundtrip frameC1 (by decide) (by decide) (by decide) (by decide)
    (by decide) (by decide) (by decide) (by decide) (by decide) (by decide)⟩

/-- **C2 (counterexample).** A candidate frame with an invalid checksum but
family byte `0x00`: the decoder returns the silent not-this-protocol
rejection, not `IntegrityFailure` — the family check runs *before* the
integrity checks, so "if either check fails, decode returns the single
IntegrityFailure kind" fails on this frame. -/
theorem C2_integrity_cex :
    ¬ SumOK bufC2 ∧ ambient_weather_tx31xx_decode bufC2 ≠ .failMic ∧
    ambient_weather_tx31xx_decode bufC2 = .notThisProtocol := by decide

/-- **C2 (amended).** For every candidate frame that passes the family and
sub-model dispatch, decode returns a successful reading only if both
CRC-16/XMODEM over body bytes 2..16 matches the big-endian CRC in bytes 0..1
and the complemented mod-256 sum matches byte 17; if either check fails,
decode returns the single `failMic` kind (so the caller cannot tell which
check failed). -/
theorem C2_integrity (bb : Bitbuffer) (r : DecodedReading)
    (hne : bitbufferSearch bb ≠ bb.len) (hlen : ¬ bb.len < TX31XX_BITLEN)
    (hfam : frameByteP bb 2 = 0x18)
    (hsub : frameByteP bb 3 = 0x70 ∨ frameByteP bb 3 = 0x30) :
    (ambient_weather_tx31xx_decode bb = .success r → CrcOK bb ∧ SumOK bb) ∧
    (¬ (CrcOK bb ∧ SumOK bb) → ambient_weather_tx31xx_decode bb = .failMic) := by
  have hfam2 : mutByte bb 2 = 0x18 := by
    rw [mutByte_eq_frame bb 2 (by norm_num)]; exact hfam
  have hsub2 : mutByte bb 3 = 0x70 ∨ mutByte bb 3 = 0x30 := by
    rw [mutByte_eq_frame bb 3 (by norm_num)]; exact hsub
  unfold ambient_weather_tx31xx_decode
  rw [if_neg hne, if_neg hlen, if_neg (not_not_intro hfam2), if_pos hsub2]
  constructor
  · intro h
    by_cases h5 : c_sum bb ≠ 0
    · rw [if_pos h5] at h; simp at h
    · rw [if_neg h5] at h
      by_cases h6 : c_crc bb ≠ r_crc bb
      · rw [if_pos h6] at h; simp at h
      · exact ⟨(c_crc_eq_iff bb).mp (not_ne_iff.mp h6),
               (c_sum_eq_zero_iff bb).mp (not_ne_iff.mp h5)⟩
  · intro hbad
    by_cases hS : SumOK bb
    · have hC : ¬ CrcOK bb := fun hC => hbad ⟨hC, hS⟩
      rw [if_neg (not_not_intro ((c_sum_eq_zero_iff bb).mpr hS))]
      rw [if_pos (fun he => hC ((c_crc_eq_iff bb).mp he))]
    · rw [if_pos (fun he => hS ((c_sum_eq_zero_iff bb).mp he))]

/-- **C2 (witness).** The amended integrity theorem applied to `bufC4`. -/
theorem C2_integrity_witness :
    (bitbufferSearch bufC4 ≠ bufC4.len ∧ frameByteP bufC4 2 = 0x18) ∧
    ((ambient_weather_tx31xx_decode bufC4 = .success readingC4 → CrcOK bufC4 ∧ SumOK bufC4) ∧
     (¬ (CrcOK bufC4 ∧ SumOK bufC4) → ambient_weather_tx31xx_decode bufC4 = .failMic)) :=
  ⟨⟨by decide, by decide⟩,
   C2_integrity bufC4 readingC4 (by decide) (by decide) (by decide) (by decide)⟩

end RTL433

namespace RTL433

/-- **C3 (code bug).** A frame that passes every check but carries raw
moisture code 0 (`b[14] = 0x00`) is not rejected as out-of-domain: the C
evaluates `moisture_array[0 - 1]`, an out-of-bounds read of the 16-entry
table (index `-1` in `int` arithmetic), modelled as the `oobTableRead`
outcome.  The spec requires codes outside 1..16 to be rejected. -/
theorem C3_moisture_oob :
    CrcOK bufC3 ∧ SumOK bufC3 ∧ frameByteP bufC3 2 = 0x18 ∧ frameByteP bufC3 3 = 0x70 ∧
    moistureCode bufC3 = 0 ∧
    ambient_weather_tx31xx_decode bufC3 = .oobTableRead := by decide

/-- **C4 (code bug).** A frame whose channel nibble is 0 passes the
`sensor_id > 7` guard (the code's own comment says "channel can only be
1 to 7") and a reading with `id = 0` is emitted instead of the
SanityFailure the claim requires. -/
theorem C4_channel_zero :
    sensorId bufC4 = 0 ∧
    ambient_weather_tx31xx_decode bufC4 = .success readingC4 ∧
    ambient_weather_tx31xx_decode bufC4 ≠ .failSanity := by decide

/-- **C5 (counterexample).** A candidate frame with an invalid CRC and
family byte `0x42` is rejected as not-this-protocol, not with
`IntegrityFailure`: the family dispatch runs *before* the integrity
validation, contradicting "decode returns IntegrityFailure regardless of the
family-code byte's value". -/
theorem C5_dispatch_cex :
    ¬ CrcOK bufC5 ∧ frameByteP bufC5 2 ≠ 0x18 ∧
    ambient_weather_tx31xx_decode bufC5 ≠ .failMic ∧
    ambient_weather_tx31xx_decode bufC5 = .notThisProtocol := by decide

/-- **C5 (amended).** Family dispatch happens *before* integrity validation:
every candidate frame whose family byte differs from `0x18` is silently
rejected as not-this-protocol — regardless of whether its CRC and checksum
are valid — without any reading and without an integrity error. -/
theorem C5_dispatch (bb : Bitbuffer)
    (hne : bitbufferSearch bb ≠ bb.len) (hlen : ¬ bb.len < TX31XX_BITLEN)
    (hfam : frameByteP bb 2 ≠ 0x18) :
    ambient_weather_tx31xx_decode bb = .notThisProtocol := by
  have hfam2 : mutByte bb 2 ≠ 0x18 := by
    rw [mutByte_eq_frame bb 2 (by norm_num)]; exact hfam
  unfold ambient_weather_tx31xx_decode
  rw [if_neg hne, if_neg hlen, if_pos hfam2]

/-- **C5 (witness).** The amended dispatch theorem applied to `bufC5` —
whose integrity is invalid — and the silent rejection it yields. -/
theorem C5_dispatch_witness :
    (bitbufferSearch bufC5 ≠ bufC5.len ∧ frameByteP bufC5 2 ≠ 0x18) ∧
    ambient_weather_tx31xx_decode bufC5 = .notThisProtocol :=
  ⟨⟨by decide, by decide⟩, C5_dispatch bufC5 (by decide) (by decide) (by decide)⟩

/-- **C6 (code bug).** The length guard tests the *total* row length
(`bits_per_row[0] < 168`), not the bits remaining after the match point: on
a 176-bit row whose preamble matches at bit 16, only 136 < 144 bits remain
after the match, yet decode does not signal frame-too-short and proceeds to
extract 144 bits (reading 8 bits past the declared end of the buffer).  The
claim's concrete instance does hold: a 100-bit buffer containing the
preamble yields the too-short signal. -/
theorem C6_short_remainder :
    bitbufferSearch bufC6 = 16 ∧ bufC6.len = 176 ∧ bufC6.len - (16 + 24) = 136 ∧
    ambient_weather_tx31xx_decode bufC6 ≠ .abortLength ∧
    bufC6short.len = 100 ∧ bitbufferSearch bufC6short = 0 ∧
    ambient_weather_tx31xx_decode bufC6short = .abortLength := by decide

end RTL433

namespace RTL433

/-- On every successful decode, the emitted temperature field is exactly
`temperatureTenthsOf` (shared elimination helper for the success branches). -/
theorem success_temperature (bb : Bitbuffer) (r : DecodedReading)
    (h : ambient_weather_tx31xx_decode bb = .success r) :
    r.temperatureTenths = temperatureTenthsOf bb := by
  unfold ambient_weather_tx31xx_decode at h
  split at h
  · simp at h
  split at h
  · simp at h
  split at h
  · simp at h
  split at h
  · split at h
    · simp at h
    split at h
    · simp at h
    split at h
    · simp at h
    split at h
    · split at h
      · rw [DecodeResult.success.injEq] at h
        rw [← h]
      · simp at h
    · rw [DecodeResult.success.injEq] at h
      rw [← h]
  · simp at h

/-- **C7 (counterexample).** A fully valid frame with the temperature sign
bit set whose alternate byte is `0x00` decodes to temperature 0.0 — not a
negative temperature, contradicting "the decoded temperature is negative". -/
theorem C7_negative_cex :
    signBit bufC7c = 1 ∧ altTempByte bufC7c = 0 ∧
    ambient_weather_tx31xx_decode bufC7c = .success readingC7c ∧
    ¬ readingC7c.temperatureTenths < 0 := by decide

/-- **C7 (amended).** On every successful decode with the sign bit (bit 3 of
`b[13]`) set, the temperature is built from the alternate byte's two BCD
nibbles as `-(tens) - 0.1 * fraction` (in tenths:
`-10 * high_nibble - low_nibble`), hence non-positive — and negative exactly
when some nibble is non-zero.  The alternate byte is row byte 19, a residual
byte of the original buffer past the 18-byte frame. -/
theorem C7_negative_path (bb : Bitbuffer) (r : DecodedReading)
    (h : ambient_weather_tx31xx_decode bb = .success r) (hsg : signBit bb = 1) :
    r.temperatureTenths =
      -10 * ((altTempByte bb / 16 % 16 : Nat) : Int) - ((altTempByte bb % 16 : Nat) : Int) ∧
    r.temperatureTenths ≤ 0 := by
  have htt := success_temperature bb r h
  unfold temperatureTenthsOf at htt
  rw [if_pos hsg, mutByte_19 bb] at htt
  refine ⟨htt, ?_⟩
  rw [htt]
  omega

/-- **C7 (witness).** The amended theorem applied to the valid sign-set frame
whose alternate byte is BCD `0x95`: decoded temperature −9.5 °C. -/
theorem C7_negative_witness :
    (ambient_weather_tx31xx_decode bufC7w = .success readingC7w ∧ signBit bufC7w = 1 ∧
      altTempByte bufC7w = 0x95 ∧ readingC7w.temperatureTenths = -95) ∧
    (readingC7w.temperatureTenths =
      -10 * ((altTempByte bufC7w / 16 % 16 : Nat) : Int) -
        ((altTempByte bufC7w % 16 : Nat) : Int) ∧
     readingC7w.temperatureTenths ≤ 0) :=
  ⟨⟨by decide, by decide, by decide, by decide⟩,
   C7_negative_path bufC7w readingC7w (by decide) (by decide)⟩

/-- **C8 (counterexample).** A decode call is *not* side-effect-free on its
input: after decoding `bufC8` (which reaches the extraction step), bit 0 of
the row has changed — the in-place `bitbuffer_extract_bytes` call overwrote
row bytes 0..17 with the candidate frame (row byte 0 went from the preamble
byte `0xAA` to frame byte `0x00`). -/
theorem C8_mutates_input_cex :
    tx31xxFinalRow bufC8 0 ≠ bufC8.bits 0 ∧
    pureByte (tx31xxFinalRow bufC8) 0 = 0x00 ∧ pureByte bufC8.bits 0 = 0xAA := by decide

/-- **C8 (amended).** The decode *result* is a pure function of the input
bits: two buffers with the same declared length and bitwise-equal storage
decode identically (no hidden state; all remaining working state is local),
even though the call overwrites the start of its row buffer in place. -/
theorem C8_pure_function (bb1 bb2 : Bitbuffer) (hlen : bb1.len = bb2.len)
    (hbits : ∀ i, bb1.bits i = bb2.bits i) :
    ambient_weather_tx31xx_decode bb1 = ambient_weather_tx31xx_decode bb2 := by
  obtain ⟨b1, l1⟩ := bb1
  obtain ⟨b2, l2⟩ := bb2
  have hb : b1 = b2 := funext hbits
  cases hb
  cases hlen
  rfl

/-- **C8 (witness).** The purity theorem applied to the same row presented
through two different constructions. -/
theorem C8_pure_function_witness :
    bufC8.len = bufC8b.len ∧
    ambient_weather_tx31xx_decode bufC8 = ambient_weather_tx31xx_decode bufC8b :=
  ⟨by decide, C8_pure_function bufC8 bufC8b (by decide) (fun i => rfl)⟩

/-- **C9 (confirmed).** For every buffer in which the preamble is matched at
bit position `p`, the 15 bytes fed to the CRC and checksum — re-extracted at
fixed bit offset 16 *after* the in-place 18-byte frame extraction has
overwritten the start of the same row — are exactly bytes 2..16 of the
candidate frame as purely extracted from the original bits at `p + 24`. -/
theorem C9_dataforcrc_slice (bb : Bitbuffer) (p : Nat) (hp : bitbufferSearch bb = p) :
    dataforcrc bb = (List.range 15).map (fun i => pureByte bb.bits (p + 24 + 8 * (2 + i))) := by
  rw [dataforcrc_eq]
  unfold bodyBytesP frameByteP
  rw [hp]

/-- **C9 (witness).** The slice equivalence at the concrete buffer `bufC1`
(preamble matched at bit 0). -/
theorem C9_dataforcrc_slice_witness :
    bitbufferSearch bufC1 = 0 ∧
    dataforcrc bufC1 =
      (List.range 15).map (fun i => pureByte bufC1.bits (0 + 24 + 8 * (2 + i))) :=
  ⟨by decide, C9_dataforcrc_slice bufC1 0 (by decide)⟩

/-- **C10 (confirmed).** Decoding is deterministic: on the same frame the
decode call yields identical readings — same model, id, temperature,
moisture, battery and integrity tag. -/
theorem C10_deterministic (bb : Bitbuffer) (r1 r2 : DecodedReading)
    (h1 : ambient_weather_tx31xx_decode bb = .success r1)
    (h2 : ambient_weather_tx31xx_decode bb = .success r2) :
    r1.model = r2.model ∧ r1.id = r2.id ∧ r1.temperatureTenths = r2.temperatureTenths ∧
    r1.moisture = r2.moisture ∧ r1.batteryOK = r2.batteryOK ∧ r1.mic = r2.mic := by
  have h := h1.symm.trans h2
  rw [DecodeResult.success.injEq] at h
  rw [h]
  exact ⟨rfl, rfl, rfl, rfl, rfl, rfl⟩

/-- **C10 (witness).** Determinism at the concrete sign-set buffer. -/
theorem C10_deterministic_witness :
    ambient_weather_tx31xx_decode bufC7w = .success readingC7w ∧
    (readingC7w.model = readingC7w.model ∧ readingC7w.id = readingC7w.id ∧
     readingC7w.temperatureTenths = readingC7w.temperatureTenths ∧
     readingC7w.moisture = readingC7w.moisture ∧
     readingC7w.batteryOK = readingC7w.batteryOK ∧ readingC7w.mic = readingC7w.mic) :=
  ⟨by decide, C10_deterministic bufC7w readingC7w readingC7w (by decide) (by decide)⟩

end RTL433
